import Mathlib

/-!
Verification development for the Everything-search virtual filesystem plugin
(source: `everything/__init__.py`).

The Python module is shallowly embedded here.  Strings are modelled as lists
of characters (`Str`), the process-wide mutable class state of `EverythingFS`
is an explicit `FSState` record threaded through each operation, and external
collaborators (the Everything DLL, the HTTP API, `os.path.isdir`) are
parameters (oracles) of the embedded functions.  Fallible Python code that
raises and catches exceptions is modelled with `Option`/`Except` and total
functions; backend invocations are counted explicitly so that caching claims
about "number of backend calls" can be stated.
-/

set_option maxRecDepth 4000

abbrev Str := List Char

/-- Model of a search result entry: the dictionary
`{'filename': ..., 'path': ..., 'size': ..., 'date_modified': ...}`
built by `search_everything_dll` / returned by the HTTP API. -/
structure SearchResult where
  filename : Str
  path : Str
  size : Nat
  date_modified : Option Str
deriving DecidableEq, Inhabited

/-- A cached value of `EverythingFS._results_cache`: the pair
`(count, results)` stored by `update_search`.  `count` is the
backend-reported total count (an arbitrary integer for the remote backend,
which reads it straight out of the JSON body). -/
abbrev ResultSet := Int × List SearchResult

/-- Model of the Python dict `EverythingFS._results_cache` as an association
list keyed by the query string. -/
abbrev Cache := List (Str × ResultSet)

/-- Dictionary lookup (`key in dict` / `dict[key]`). -/
def cacheLookup : Cache → Str → Option ResultSet
  | [], _ => Option.none
  | (k, v) :: rest, q => if k = q then Option.some v else cacheLookup rest q

/-- Dictionary assignment `dict[key] = value` (replaces an existing binding,
otherwise appends). -/
def cacheInsert : Cache → Str → ResultSet → Cache
  | [], q, v => [(q, v)]
  | (k, w) :: rest, q, v =>
    if k = q then (q, v) :: rest else (k, w) :: cacheInsert rest q v

/-- Dictionary deletion `del dict[key]` (the source guards it with
`if key in dict`, so deleting an absent key never happens; erasing an absent
key here is the identity). -/
def cacheErase : Cache → Str → Cache
  | [], _ => []
  | (k, w) :: rest, q => if k = q then rest else (k, w) :: cacheErase rest q

/-- The mutable class-level state of `EverythingFS`
(`_current_search_term`, `_results_cache`, `_last_selected_file`,
`_last_selected_index`). -/
structure FSState where
  current_search_term : Str
  results_cache : Cache
  last_selected_file : Option Str
  last_selected_index : Int
deriving DecidableEq, Inhabited

/- ### Character / string helpers mirroring the Python string operations -/

/-- Occurrence test `c in s`. -/
def containsChar (c : Char) : Str → Bool
  | [] => false
  | x :: rest => x = c || containsChar c rest

/-- Occurrence count `s.count(c)`. -/
def countChar (c : Char) : Str → Nat
  | [] => 0
  | x :: rest => (if x = c then 1 else 0) + countChar c rest

/-- Python `str.isdigit()` for ASCII data: non-empty and all decimal digits. -/
def pyIsdigit (s : Str) : Bool := !s.isEmpty && s.all Char.isDigit

/-- Numeric value of a decimal digit string (used for `int(s)` on a string
that passed `isdigit`). -/
def digitsToNat (s : Str) : Nat :=
  s.foldl (fun a c => a * 10 + (c.toNat - 48)) 0

/-- Python `int(s)` on a plain decimal literal with an optional sign,
returning `Option.none` where `int` raises `ValueError`.  (Surrounding
whitespace and `_` digit separators, which CPython also accepts, never occur
in the paths this plugin handles and are not modelled.) -/
def pyInt (s : Str) : Option Int :=
  match s with
  | '-' :: rest =>
    if pyIsdigit rest then Option.some (-(digitsToNat rest : Int)) else Option.none
  | '+' :: rest =>
    if pyIsdigit rest then Option.some (digitsToNat rest : Int) else Option.none
  | _ => if pyIsdigit s then Option.some (digitsToNat s : Int) else Option.none

/-- Python `s.split(sep, 1)[1]`: everything after the first occurrence of
`c` (callers guard with `c in s`). -/
def afterFirst (c : Char) (s : Str) : Str :=
  (s.dropWhile (fun x => x ≠ c)).drop 1

/-- Python `s.rsplit(sep, 1)[1]`: everything after the last occurrence of
`c` (callers guard with `c in s`). -/
def afterLast (c : Char) (s : Str) : Str :=
  (s.reverse.takeWhile (fun x => x ≠ c)).reverse

/-- Python `s.split(sep)` for a single-character separator. -/
def splitChar (c : Char) : Str → List Str
  | [] => [[]]
  | x :: rest =>
    if x = c then [] :: splitChar c rest
    else
      match splitChar c rest with
      | [] => [[x]]
      | p :: ps => (x :: p) :: ps

/-- Python `next((p for p in reversed(parts) if p), None)`: the last
non-empty piece. -/
def lastNonEmpty (ps : List Str) : Option Str :=
  ps.reverse.find? (fun p => !p.isEmpty)

/-- Python `s.endswith(suffix)`. -/
def endsWith (s suffix : Str) : Bool :=
  decide (s.reverse.take suffix.length = suffix.reverse)

/-- Python `s.startswith(prefix)` for the single character `'/'`. -/
def startsWithChar (c : Char) : Str → Bool
  | [] => false
  | x :: _ => x = c

/-- Last character `s[-1]` (callers guard against the empty string). -/
def lastCharD (s : Str) : Char := s.reverse.headD '0'

/-- Value of `Nat.repr` as a character list: Python `str(i)` / `f"{i}"` for a
non-negative integer. -/
def natToStr (n : Nat) : Str := Nat.toDigits 10 n

/-- Hexadecimal digit value, for percent-decoding. -/
def hexVal (c : Char) : Option Nat :=
  if '0' ≤ c ∧ c ≤ '9' then Option.some (c.toNat - 48)
  else if 'A' ≤ c ∧ c ≤ 'F' then Option.some (c.toNat - 55)
  else if 'a' ≤ c ∧ c ≤ 'f' then Option.some (c.toNat - 87)
  else Option.none

/-- Model of `urllib.parse.unquote` on the ASCII fragment: a valid escape
`%XY` whose byte value is below 128 decodes to that character, an invalid
escape is kept verbatim (as CPython does).  Multi-byte UTF-8 escapes
(bytes ≥ 128) are outside the scope of every claim and are left undecoded. -/
def unquoteChars : Str → Str
  | '%' :: a :: b :: rest =>
    match hexVal a, hexVal b with
    | Option.some hi, Option.some lo =>
      if hi * 16 + lo < 128 then Char.ofNat (hi * 16 + lo) :: unquoteChars rest
      else '%' :: a :: b :: unquoteChars rest
    | _, _ => '%' :: unquoteChars (a :: b :: rest)
  | c :: rest => c :: unquoteChars rest
  | [] => []

/- ### Fixed string constants of the plugin -/

/-- The literal `"placeholder"`. -/
def placeholderS : Str := ['p','l','a','c','e','h','o','l','d','e','r']

/-- The literal `"/placeholder"`. -/
def slashPlaceholderS : Str := '/' :: placeholderS

/-- The scheme literal `"everything://"`. -/
def schemeS : Str := ['e','v','e','r','y','t','h','i','n','g',':','/','/']

/-- The scheme prefix produced by `fman.url.as_url`: `"file://"`. -/
def fileSchemeS : Str := ['f','i','l','e',':','/','/']

/-- The command name `"open"`. -/
def openS : Str := ['o','p','e','n']

/-- The command name `"open_file"`. -/
def openFileS : Str := ['o','p','e','n','_','f','i','l','e']

/-- The command name `"open_directory"`. -/
def openDirectoryS : Str := ['o','p','e','n','_','d','i','r','e','c','t','o','r','y']

/-- The settings value `"dll"`. -/
def dllModeS : Str := ['d','l','l']

/-- Separator test used by the `os.path` models (Windows accepts both). -/
def isSep (c : Char) : Bool := c = '/' || c = '\\'

/-- Model of `os.path.basename` (component after the last separator; drive
and root edge cases of `ntpath` do not occur in the claims). -/
def basename (p : Str) : Str :=
  (p.reverse.takeWhile (fun c => !isSep c)).reverse

/-- Model of `os.path.dirname` (everything before the last separator). -/
def dirname (p : Str) : Str :=
  ((p.reverse.dropWhile (fun c => !isSep c)).drop 1).reverse

/-- Model of `fman.url.as_url`: prefix the real path with `file://`. -/
def as_url (p : Str) : Str := fileSchemeS ++ p

/-- Model of `fman.url.splitscheme`: split at the first `"://"`, keeping the
`"://"` with the scheme part. -/
def splitschemeAux : Str → Option (Str × Str)
  | [] => Option.none
  | ':' :: '/' :: '/' :: rest => Option.some ([':', '/', '/'], rest)
  | c :: rest =>
    match splitschemeAux rest with
    | Option.some (a, b) => Option.some (c :: a, b)
    | Option.none => Option.none

/-- Total wrapper for `splitscheme`; every URL this plugin receives carries a
scheme, a scheme-less string is returned unsplit. -/
def splitscheme (url : Str) : Str × Str :=
  (splitschemeAux url).getD (url, [])

/- ### Backends -/

/-- Structured stand-in for the exception messages raised by the two search
backends (the claims never inspect message text, only success/failure). -/
inductive SearchError where
  | dllNotLoaded
  | dllQueryFailed (code : Nat)
  | apiBadRequest
  | apiNotFound
  | apiHttp (code : Nat)
  | apiConnection
  | apiParse
  | apiOther
deriving DecidableEq

/-- Outcome of one backend execution: the `(count, results)` pair, or the
raised exception. -/
abbrev SearchOutcome := Except SearchError ResultSet

/-- Observable behaviour of the Everything DLL after `Everything_SetSearchW`
on one query: whether `Everything_QueryW` succeeds, the last error code, the
number of results, and the per-index field reads.  `fullPath i = none`
models `Everything_GetResultFullPathNameW` returning `0`; `dateModified`
yields the already-converted ISO string (the Windows-tick conversion in the
source is floating-point calendar arithmetic on foreign data and is
abstracted into this oracle). -/
structure DllResponse where
  queryOk : Bool
  lastError : Nat
  numResults : Nat
  fullPath : Nat → Option Str
  size : Nat → Option Nat
  dateModified : Nat → Option Str

/-- The result-collection loop of `search_everything_dll`
(`for i in range(min(count, 100))`): skip an entry whose full path cannot be
read or is empty, otherwise append the assembled dictionary. -/
def dllCollect (d : DllResponse) : List SearchResult :=
  (List.range (min d.numResults 100)).foldl
    (fun acc i =>
      match d.fullPath i with
      | Option.none => acc
      | Option.some fn =>
        if fn.isEmpty then acc
        else acc ++ [⟨basename fn, fn, ((d.size i).getD 0), d.dateModified i⟩])
    []

/-- Model of `search_everything_dll`: raises when the DLL is not loaded or
`Everything_QueryW` fails, otherwise returns the reported count together
with at most 100 collected entries. -/
def search_everything_dll (dllHandle : Option (Str → DllResponse)) (query : Str) :
    SearchOutcome :=
  match dllHandle with
  | Option.none => Except.error SearchError.dllNotLoaded
  | Option.some h =>
    let d := h query
    if d.queryOk then Except.ok ((d.numResults : Int), dllCollect d)
    else Except.error (SearchError.dllQueryFailed d.lastError)

/-- The decoded JSON body of a successful HTTP response:
`data.get('count', 0)` and `data.get('results', [])` are read independently,
so the count and the length of the list are unrelated. -/
structure ApiResponse where
  count : Int
  results : List SearchResult
deriving DecidableEq

/-- The ways `search_everything_api`'s HTTP request can fail before a JSON
body is obtained. -/
inductive ApiFailure where
  | httpError (code : Nat)
  | urlError
  | jsonError
  | other
deriving DecidableEq

/-- Model of `search_everything_api`: on a body, return
`(count, results)`; map each transport failure to the exception the source
raises for it. -/
def search_everything_api (resp : Except ApiFailure ApiResponse) (_query : Str) :
    SearchOutcome :=
  match resp with
  | Except.ok r => Except.ok (r.count, r.results)
  | Except.error (ApiFailure.httpError code) =>
    if code = 400 then Except.error SearchError.apiBadRequest
    else if code = 404 then Except.error SearchError.apiNotFound
    else Except.error (SearchError.apiHttp code)
  | Except.error ApiFailure.urlError => Except.error SearchError.apiConnection
  | Except.error ApiFailure.jsonError => Except.error SearchError.apiParse
  | Except.error ApiFailure.other => Except.error SearchError.apiOther

/-- Model of `search_everything`: in `dll` mode try the DLL first and fall
back to the HTTP API on any exception; otherwise call the HTTP API
directly. -/
def search_everything (mode : Str) (dllHandle : Option (Str → DllResponse))
    (api : Str → Except ApiFailure ApiResponse) (query : Str) : SearchOutcome :=
  if mode = dllModeS then
    match search_everything_dll dllHandle query with
    | Except.ok r => Except.ok r
    | Except.error _ => search_everything_api (api query) query
  else search_everything_api (api query) query

/- ### EverythingFS operations -/

/-- Result of `update_search`, with the number of `search_everything`
invocations made (0 or 1) recorded for the caching claims. -/
structure UpdateResult where
  state : FSState
  backendCalls : Nat
deriving DecidableEq

/-- Model of `EverythingFS.update_search`: set `_current_search_term`; for a
term of length ≥ 3 that is not already cached, run one backend search, store
`(count, results)` and re-store with the list truncated to 100 when it is
longer; on a backend exception delete any entry for the term.  A shorter
term only updates `_current_search_term`. -/
def update_search (be : Str → SearchOutcome) (st : FSState) (term : Str) :
    UpdateResult :=
  let st1 : FSState := { st with current_search_term := term }
  if 3 ≤ term.length then
    if (cacheLookup st1.results_cache term).isSome then ⟨st1, 0⟩
    else
      match be term with
      | Except.ok (count, results) =>
        let cache1 := cacheInsert st1.results_cache term (count, results)
        let cache2 :=
          if 100 < results.length then
            cacheInsert cache1 term (count, results.take 100)
          else cache1
        ⟨{ st1 with results_cache := cache2 }, 1⟩
      | Except.error _ =>
        ⟨{ st1 with results_cache := cacheErase st1.results_cache term }, 1⟩
  else ⟨st1, 0⟩

/-- The yield phase of `EverythingFS.iterdir` (lines after the search-term
extraction): placeholder for a short term, one `"/i"` child per cached
result, placeholder when the term is not cached. -/
def listingOutput (st : FSState) : List Str :=
  if st.current_search_term.length < 3 then [placeholderS]
  else
    match cacheLookup st.results_cache st.current_search_term with
    | Option.some (_, results) =>
      (List.range results.length).map (fun i => '/' :: natToStr i)
    | Option.none => [placeholderS]

/-- Result of a full `iterdir` call: final state, yielded children, number
of backend invocations. -/
structure ListingResult where
  state : FSState
  entries : List Str
  backendCalls : Nat
deriving DecidableEq

/-- Model of `EverythingFS.iterdir`: decode the path (legacy `?` form, new
`/` form with the result-item fast path for an all-digit remainder, bare
term, or empty search), run `update_search` accordingly, then yield. -/
def iterdir (be : Str → SearchOutcome) (st : FSState) (path : Str) :
    ListingResult :=
  let u : UpdateResult :=
    if containsChar '?' path then
      update_search be st (unquoteChars (afterFirst '?' path))
    else if 1 ≤ countChar '/' path then
      if startsWithChar '/' path then
        if pyIsdigit (path.drop 1) then ⟨st, 0⟩
        else update_search be st (unquoteChars (path.drop 1))
      else update_search be st (unquoteChars path)
    else update_search be st []
  ⟨u.state, listingOutput u.state, u.backendCalls⟩

/-- Model of `EverythingFS.resolve`: the placeholder and every
non-index-like path resolve to the synthetic `everything://` location; an
in-range index under the current cached query resolves to the real file
URL.  (The `except (ValueError, IndexError, KeyError)` of the source is the
`Option.none` branch of `pyInt`; the bounds are checked before indexing, so
no other failure can occur.) -/
def resolve (st : FSState) (path : Str) : Str :=
  if path = placeholderS then schemeS ++ path
  else if containsChar '/' path then
    match pyInt (afterLast '/' path) with
    | Option.some index =>
      match cacheLookup st.results_cache st.current_search_term with
      | Option.some (_, results) =>
        if 0 ≤ index ∧ index < (results.length : Int) then
          as_url ((results.getD index.toNat default).path)
        else schemeS ++ path
      | Option.none => schemeS ++ path
    | Option.none => schemeS ++ path
  else schemeS ++ path

/-- Model of `EverythingFS.is_dir`: only an in-range index under the current
cached query consults the real filesystem (the `isdir` oracle); everything
else is `false`. -/
def is_dir (isdir : Str → Bool) (st : FSState) (path : Str) : Bool :=
  if path = placeholderS then false
  else if containsChar '/' path then
    match pyInt (afterLast '/' path) with
    | Option.some index =>
      match cacheLookup st.results_cache st.current_search_term with
      | Option.some (_, results) =>
        if 0 ≤ index ∧ index < (results.length : Int) then
          isdir ((results.getD index.toNat default).path)
        else false
      | Option.none => false
    | Option.none => false
  else false

/-- Model of `EverythingFS.get_item_at_index`: pure lookup against the
current query's cached results; absent for a short current term, an
uncached term, or an out-of-range index. -/
def get_item_at_index (st : FSState) (index : Int) : Option SearchResult :=
  if st.current_search_term.length < 3 then Option.none
  else
    match cacheLookup st.results_cache st.current_search_term with
    | Option.some (_, results) =>
      if 0 ≤ index ∧ index < (results.length : Int) then
        results.get? index.toNat
      else Option.none
    | Option.none => Option.none

/- ### The DateModified column's timestamp formatting -/

/-- Components extracted by `datetime.strptime(s, '%Y-%m-%dT%H:%M:%S')`. -/
structure DateTimeParts where
  year : Nat
  month : Nat
  day : Nat
  hour : Nat
  minute : Nat
  second : Nat
deriving DecidableEq

/-- Consume exactly four decimal digits (the `%Y` directive). -/
def takeDigits4 (s : Str) : Option (Nat × Str) :=
  match s with
  | a :: b :: c :: d :: rest =>
    if a.isDigit && b.isDigit && c.isDigit && d.isDigit then
      Option.some (digitsToNat [a, b, c, d], rest)
    else Option.none
  | _ => Option.none

/-- Consume one or two decimal digits (the `%m`/`%d`/`%H`/`%M`/`%S`
directives; two digits are preferred, and since every following literal in
the format is a non-digit, no backtracking is ever needed). -/
def takeDigits2 (s : Str) : Option (Nat × Str) :=
  match s with
  | a :: b :: rest =>
    if a.isDigit then
      if b.isDigit then Option.some (digitsToNat [a, b], rest)
      else Option.some (digitsToNat [a], b :: rest)
    else Option.none
  | [a] => if a.isDigit then Option.some (digitsToNat [a], []) else Option.none
  | [] => Option.none

/-- Consume one literal character of the format string. -/
def expectChar (c : Char) (s : Str) : Option Str :=
  match s with
  | x :: rest => if x = c then Option.some rest else Option.none
  | [] => Option.none

/-- Gregorian leap-year rule used by `datetime`'s day-of-month validation. -/
def isLeap (y : Nat) : Bool :=
  y % 4 = 0 && (y % 100 ≠ 0 || y % 400 = 0)

/-- Days in a month, as validated by the `datetime` constructor. -/
def daysInMonth (y m : Nat) : Nat :=
  if m = 2 then (if isLeap y then 29 else 28)
  else if m = 4 ∨ m = 6 ∨ m = 9 ∨ m = 11 then 30
  else 31

/-- Model of `datetime.strptime(s, '%Y-%m-%dT%H:%M:%S')`: parse the fixed
shape, require the whole string to be consumed, and apply the range checks
the `datetime` constructor performs (`ValueError` on violation becomes
`Option.none`). -/
def strptimeYmdTHMS (s : Str) : Option DateTimeParts := do
  let (y, s) ← takeDigits4 s
  let s ← expectChar '-' s
  let (mo, s) ← takeDigits2 s
  let s ← expectChar '-' s
  let (d, s) ← takeDigits2 s
  let s ← expectChar 'T' s
  let (h, s) ← takeDigits2 s
  let s ← expectChar ':' s
  let (mi, s) ← takeDigits2 s
  let s ← expectChar ':' s
  let (sec, s) ← takeDigits2 s
  if s = [] ∧ 1 ≤ y ∧ 1 ≤ mo ∧ mo ≤ 12 ∧ 1 ≤ d ∧ d ≤ daysInMonth y mo ∧
      h ≤ 23 ∧ mi ≤ 59 ∧ sec ≤ 59 then
    Option.some ⟨y, mo, d, h, mi, sec⟩
  else Option.none

/-- Zero-pad a number to two characters (`%m`, `%d`, `%H`, `%M`, `%S`). -/
def pad2 (n : Nat) : Str :=
  if n < 10 then '0' :: natToStr n else natToStr n

/-- Zero-pad a number to four characters (`%Y`). -/
def pad4 (n : Nat) : Str :=
  List.replicate (4 - (natToStr n).length) '0' ++ natToStr n

/-- Model of `date.strftime("%Y-%m-%d %H:%M:%S")`. -/
def strftimeOut (d : DateTimeParts) : Str :=
  pad4 d.year ++ '-' :: pad2 d.month ++ '-' :: pad2 d.day ++
    ' ' :: pad2 d.hour ++ ':' :: pad2 d.minute ++ ':' :: pad2 d.second

/-- The zone-suffix stripping of `DateModified.get_str`: remove every `'Z'`,
else cut at the first `'+'`, else (when more than two `'-'` occur) cut at
the last `'-'`. -/
def stripZoneSuffix (raw : Str) : Str :=
  if containsChar 'Z' raw then raw.filter (fun c => c ≠ 'Z')
  else if containsChar '+' raw then raw.takeWhile (fun c => c ≠ '+')
  else if containsChar '-' raw && 2 < countChar '-' raw then
    ((raw.reverse.dropWhile (fun c => c ≠ '-')).drop 1).reverse
  else raw

/-- The date-formatting block of `DateModified.get_str` (the part applied to
a fetched entry's raw `date_modified` string): strip the zone suffix, parse,
reformat; on any parse failure return the raw string unchanged. -/
def dateModifiedFormat (raw : Str) : Str :=
  match strptimeYmdTHMS (stripZoneSuffix raw) with
  | Option.some d => strftimeOut d
  | Option.none => raw

/- ### EverythingOpenListener -/

/-- Host-facing instructions issued by the listener (the payloads of
`show_alert` are diagnostic f-strings and are elided). -/
inductive HostAction where
  | setPath (url : Str) (hasCallback : Bool)
  | runCommand (name : Str) (url : Str)
  | placeCursorAt (url : Str)
  | showAlert
deriving DecidableEq

/-- The value returned by `on_command`: `None`, `False`, `True`, or a
rewritten `(command, {'url': ...})` pair. -/
inductive CommandResult where
  | nothing
  | returnedFalse
  | returnedTrue
  | rewrite (cmd : Str) (url : Str)
deriving DecidableEq

/-- Model of `EverythingOpenListener.on_doubleclicked`: extract the result
index (literal `/0`–`/2` fast path, then the general digit scan), fetch the
entry, navigate into a directory or run the `open` command on a file; the
state is never modified.  A failed extraction returns `None` early, every
other `everything://` outcome returns `True`. -/
def on_doubleclicked (isdir : Str → Bool) (st : FSState) (file_url : Str) :
    FSState × List HostAction × Option Bool :=
  let sp := splitscheme file_url
  if sp.1 ≠ schemeS then (st, [], Option.none)
  else if sp.2 = placeholderS then (st, [], Option.none)
  else
    let path := sp.2
    let idx : Option Int :=
      if endsWith path ['/', '0'] || endsWith path ['/', '1'] ||
          endsWith path ['/', '2'] then
        Option.some ((lastCharD path).toNat - 48 : Nat)
      else if containsChar '/' path then
        match lastNonEmpty (splitChar '/' path) with
        | Option.some s =>
          if pyIsdigit s then Option.some (digitsToNat s : Int) else Option.none
        | Option.none => Option.none
      else Option.none
    match idx with
    | Option.none => (st, [], Option.none)
    | Option.some i =>
      match get_item_at_index st i with
      | Option.some item =>
        if isdir item.path then
          (st, [HostAction.setPath (as_url item.path) false], Option.some true)
        else
          (st, [HostAction.runCommand openS (as_url item.path)], Option.some true)
      | Option.none => (st, [], Option.some true)

/-- Model of `EverythingOpenListener.on_command` for the `open_file`
command: for a directory entry navigate there; for a file entry record
`{path, index}` into the selection state, navigate to the parent directory
with a cursor-placement callback, and rewrite the command to
`open_directory` on the parent.  All other inputs return `None` (or `False`
for the placeholder). -/
def on_command (isdir : Str → Bool) (st : FSState) (command_name : Str)
    (argsUrl : Option Str) : FSState × List HostAction × CommandResult :=
  if command_name = openFileS then
    match argsUrl with
    | Option.some url =>
      let sp := splitscheme url
      if sp.1 = schemeS then
        let path := sp.2
        if path = placeholderS ∨ path = slashPlaceholderS then
          (st, [], CommandResult.returnedFalse)
        else if containsChar '/' path then
          match lastNonEmpty (splitChar '/' path) with
          | Option.some s =>
            if pyIsdigit s then
              let i : Int := (digitsToNat s : Nat)
              match get_item_at_index st i with
              | Option.some item =>
                if isdir item.path then
                  (st,
                   [HostAction.showAlert, HostAction.showAlert, HostAction.showAlert,
                    HostAction.setPath (as_url item.path) false],
                   CommandResult.returnedTrue)
                else
                  ({ st with
                      last_selected_file := Option.some item.path,
                      last_selected_index := i },
                   [HostAction.showAlert, HostAction.showAlert,
                    HostAction.setPath (as_url (dirname item.path)) true,
                    HostAction.showAlert],
                   CommandResult.rewrite openDirectoryS (as_url (dirname item.path)))
              | Option.none =>
                (st, [HostAction.showAlert, HostAction.showAlert],
                 CommandResult.nothing)
            else (st, [HostAction.showAlert], CommandResult.nothing)
          | Option.none => (st, [HostAction.showAlert], CommandResult.nothing)
        else (st, [], CommandResult.nothing)
      else (st, [], CommandResult.nothing)
    | Option.none => (st, [], CommandResult.nothing)
  else (st, [], CommandResult.nothing)

/- ### Concrete fixtures (used by witnesses and counterexamples) -/

/-- A sample real file entry. -/
def exEntry (n : Nat) : SearchResult :=
  ⟨['f'], ['C', ':', '/', 'f'] ++ natToStr n, 10, Option.none⟩

/-- The query string `"abc"`. -/
def abcS : Str := ['a', 'b', 'c']

/-- A state whose current query `"abc"` is cached with five results. -/
def stFive : FSState :=
  ⟨abcS, [(abcS, (5, [exEntry 0, exEntry 1, exEntry 2, exEntry 3, exEntry 4]))],
   Option.none, 0⟩

/-- A backend whose execution always fails. -/
def beFail : Str → SearchOutcome := fun _ => Except.error SearchError.apiOther

/-- A backend that always succeeds with two results. -/
def beTwo : Str → SearchOutcome := fun _ => Except.ok (2, [exEntry 0, exEntry 1])

/-- A backend that always succeeds with zero results. -/
def beEmptyOk : Str → SearchOutcome := fun _ => Except.ok (0, [])

/-- The settings value `"api"`. -/
def apiModeS : Str := ['a', 'p', 'i']

/-- An HTTP API oracle returning an empty body with three results claimed. -/
def apiEmptyOk : Str → Except ApiFailure ApiResponse := fun _ => Except.ok ⟨3, []⟩

/-- An HTTP API oracle whose JSON body reports `count = 5` alongside an empty
`results` list (the wire contract does not tie the two together). -/
def apiCountFive : Str → Except ApiFailure ApiResponse := fun _ => Except.ok ⟨5, []⟩

/-- An `os.path.isdir` oracle under which every path is a plain file. -/
def isdirNever : Str → Bool := fun _ => false

/-- An `os.path.isdir` oracle under which every path is a directory. -/
def isdirAlways : Str → Bool := fun _ => true

/-- A state with an empty cache and an empty current term. -/
def stEmpty : FSState := ⟨[], [], Option.none, 0⟩

/-- A state whose current query `"abc"` is cached with an empty result
list (a successful search that matched nothing). -/
def stEmptyResults : FSState := ⟨abcS, [(abcS, (0, []))], Option.none, 0⟩

/-- The path string `"/foo/5"`. -/
def fooSlash5 : Str := ['/', 'f', 'o', 'o', '/', '5']

/-- The string `"foo/5"`. -/
def fooFive : Str := ['f', 'o', 'o', '/', '5']

/-- The path string whose final segment is the negative literal `-1`. -/
def slashNeg1 : Str := ['/', '-', '1']

/-- The unparseable timestamp string `"garbage"`. -/
def garbageS : Str := ['g', 'a', 'r', 'b', 'a', 'g', 'e']

/-- The raw timestamp `"2024-03-05T12:30:00Z"`. -/
def exDateRaw : Str :=
  ['2','0','2','4','-','0','3','-','0','5','T','1','2',':','3','0',':','0','0','Z']

/-- The formatted timestamp `"2024-03-05 12:30:00"`. -/
def exDateFormatted : Str :=
  ['2','0','2','4','-','0','3','-','0','5',' ','1','2',':','3','0',':','0','0']

/-- The virtual URL `"everything:///abc//0"`. -/
def exUrl0 : Str := schemeS ++ ['/', 'a', 'b', 'c', '/', '/', '0']


/- ### Helper lemmas -/

theorem cacheLookup_insert (c : Cache) (q : Str) (v : ResultSet) :
    cacheLookup (cacheInsert c q v) q = Option.some v := by
  induction c with
  | nil => simp [cacheInsert, cacheLookup]
  | cons kv rest ih =>
    obtain ⟨k, w⟩ := kv
    by_cases h : k = q
    · simp [cacheInsert, h, cacheLookup]
    · simp [cacheInsert, h, cacheLookup, ih]

theorem cacheInsert_cacheInsert (c : Cache) (q : Str) (v1 v2 : ResultSet) :
    cacheInsert (cacheInsert c q v1) q v2 = cacheInsert c q v2 := by
  induction c with
  | nil => simp [cacheInsert]
  | cons kv rest ih =>
    obtain ⟨k, w⟩ := kv
    by_cases h : k = q
    · simp [cacheInsert, h]
    · simp [cacheInsert, h, ih]

theorem containsChar_iff_mem (c : Char) (s : Str) :
    containsChar c s = true ↔ c ∈ s := by
  induction s with
  | nil => simp [containsChar]
  | cons x rest ih =>
    simp only [containsChar, Bool.or_eq_true, decide_eq_true_eq, ih, List.mem_cons]
    constructor
    · rintro (h | h)
      · exact Or.inl h.symm
      · exact Or.inr h
    · rintro (h | h)
      · exact Or.inl h.symm
      · exact Or.inr h

theorem containsChar_append (c : Char) (l1 l2 : Str) :
    containsChar c (l1 ++ l2) = (containsChar c l1 || containsChar c l2) := by
  induction l1 with
  | nil => simp [containsChar]
  | cons x rest ih => simp [containsChar, ih, Bool.or_assoc]

theorem not_containsChar_of_all_digit {c : Char} (hc : c.isDigit = false) {s : Str}
    (hall : s.all Char.isDigit = true) : containsChar c s = false := by
  induction s with
  | nil => rfl
  | cons x rest ih =>
    simp only [List.all_cons, Bool.and_eq_true] at hall
    have h2 := ih hall.2
    simp only [containsChar, h2, Bool.or_false, decide_eq_false_iff_not]
    intro he
    rw [he, hc] at hall
    exact Bool.noConfusion hall.1

theorem pyIsdigit_of (s : Str) (hs : s ≠ []) (hall : s.all Char.isDigit = true) :
    pyIsdigit s = true := by
  cases s with
  | nil => exact absurd rfl hs
  | cons x rest => simp [pyIsdigit, hall]

theorem splitChar_ne_nil (c : Char) (s : Str) : splitChar c s ≠ [] := by
  cases s with
  | nil => simp [splitChar]
  | cons x rest =>
    simp only [splitChar]
    split
    · simp
    · split <;> simp

theorem splitChar_of_not_contains (c : Char) (s : Str)
    (h : containsChar c s = false) : splitChar c s = [s] := by
  induction s with
  | nil => rfl
  | cons x rest ih =>
    simp only [containsChar, Bool.or_eq_false_iff, decide_eq_false_iff_not] at h
    simp [splitChar, h.1, ih h.2]

theorem splitChar_append_sep (c : Char) (base s : Str)
    (hs : containsChar c s = false) :
    splitChar c (base ++ c :: s) = splitChar c base ++ [s] := by
  induction base with
  | nil => simp [splitChar, splitChar_of_not_contains c s hs]
  | cons x b ih =>
    simp only [List.cons_append, splitChar, List.append_eq]
    rw [ih]
    by_cases hx : x = c
    · simp [hx]
    · simp only [if_neg hx]
      cases hB : splitChar c b with
      | nil => exact absurd hB (splitChar_ne_nil c b)
      | cons p ps => simp

theorem lastNonEmpty_append_singleton (ps : List Str) (s : Str) (hs : s ≠ []) :
    lastNonEmpty (ps ++ [s]) = Option.some s := by
  have hpos : (fun p : Str => !p.isEmpty) s = true := by
    cases s with
    | nil => exact absurd rfl hs
    | cons a t => rfl
  simp only [lastNonEmpty, List.reverse_append, List.reverse_cons, List.reverse_nil,
    List.nil_append, List.singleton_append]
  exact List.find?_cons_of_pos _ hpos

theorem lastNonEmpty_splitChar (base s : Str) (hs : s ≠ [])
    (hns : containsChar '/' s = false) :
    lastNonEmpty (splitChar '/' (base ++ '/' :: s)) = Option.some s := by
  rw [splitChar_append_sep '/' base s hns]
  exact lastNonEmpty_append_singleton _ s hs

theorem reverse_append_sep (base s : Str) :
    (base ++ '/' :: s).reverse = s.reverse ++ '/' :: base.reverse := by
  simp

theorem lastCharD_append_single (base : Str) (c d : Char) :
    lastCharD (base ++ c :: [d]) = d := by
  simp [lastCharD]

theorem endsWith_append_sep_iff (base s : Str) (hs : s ≠ [])
    (hns : containsChar '/' s = false) (d : Char) :
    endsWith (base ++ '/' :: s) ['/', d] = true ↔ s = [d] := by
  unfold endsWith
  rw [reverse_append_sep,
    show (['/', d] : Str).length = 2 from rfl,
    show (['/', d] : Str).reverse = [d, '/'] from rfl]
  cases s with
  | nil => exact absurd rfl hs
  | cons x t =>
    cases t with
    | nil =>
      simp [List.take]
    | cons y u =>
      have hlen : 2 ≤ (x :: y :: u).reverse.length := by
        simp [List.length_reverse]
      rw [List.take_append_of_le_length hlen]
      constructor
      · intro heq
        exfalso
        have heq' : (x :: y :: u).reverse.take 2 = [d, '/'] := of_decide_eq_true heq
        have hmem : '/' ∈ (x :: y :: u).reverse.take 2 := by rw [heq']; simp
        have hmem2 : '/' ∈ (x :: y :: u) := by
          rw [← List.mem_reverse]
          exact List.take_subset _ _ hmem
        have hcc := (containsChar_iff_mem '/' (x :: y :: u)).mpr hmem2
        rw [hns] at hcc
        exact Bool.noConfusion hcc
      · intro heq
        exact absurd heq (by simp)

theorem splitscheme_everything (p : Str) :
    splitscheme (schemeS ++ p) = (schemeS, p) := rfl

theorem append_sep_ne_placeholder (base s : Str) :
    base ++ '/' :: s ≠ placeholderS := by
  intro h
  have h1 : containsChar '/' (base ++ '/' :: s) = true := by
    rw [containsChar_append]
    simp [containsChar]
  rw [h] at h1
  exact absurd h1 (by decide)

theorem append_digits_ne_slashPlaceholder (base s : Str) (hs : s ≠ [])
    (hall : s.all Char.isDigit = true) :
    base ++ '/' :: s ≠ slashPlaceholderS := by
  intro h
  cases hsr : s.reverse with
  | nil =>
    rw [List.reverse_eq_nil_iff] at hsr
    exact absurd hsr hs
  | cons a t =>
    have ha : a ∈ s := by
      rw [← List.mem_reverse, hsr]
      simp
    have had : a.isDigit = true := by
      rw [List.all_eq_true] at hall
      exact hall a ha
    have hrev : (base ++ '/' :: s).reverse = a :: (t ++ '/' :: base.reverse) := by
      rw [reverse_append_sep, hsr]
      simp
    rw [h] at hrev
    have hr : slashPlaceholderS.reverse =
        'r' :: ['e','d','l','o','h','e','c','a','l','p','/'] := by decide
    rw [hr] at hrev
    have : a = 'r' := (List.cons.injEq _ _ _ _).mp hrev.symm |>.1
    rw [this] at had
    exact absurd had (by decide)

theorem update_search_cached (be : Str → SearchOutcome) (st : FSState) (q : Str)
    (hlen : 3 ≤ q.length)
    (hhit : (cacheLookup st.results_cache q).isSome = true) :
    update_search be st q = ⟨{ st with current_search_term := q }, 0⟩ := by
  simp [update_search, hlen, hhit]

theorem update_search_stores (be : Str → SearchOutcome) (st : FSState) (q : Str)
    (count : Int) (results : List SearchResult) (hlen : 3 ≤ q.length)
    (hmiss : cacheLookup st.results_cache q = Option.none)
    (hok : be q = Except.ok (count, results)) :
    update_search be st q =
      ⟨{ st with
          current_search_term := q
          results_cache := cacheInsert st.results_cache q (count, results.take 100) },
       1⟩ := by
  by_cases h100 : 100 < results.length
  · simp [update_search, hlen, hmiss, hok, h100, cacheInsert_cacheInsert]
  · have htake : results.take 100 = results :=
      List.take_of_length_le (by omega)
    simp [update_search, hlen, hmiss, hok, h100, htake]

theorem listingOutput_cases (s : FSState) :
    listingOutput s ≠ [] ∨
    ∃ count, cacheLookup s.results_cache s.current_search_term =
      Option.some (count, []) := by
  unfold listingOutput
  by_cases hlen : s.current_search_term.length < 3
  · simp [hlen]
  · simp only [hlen, if_false]
    cases hcl : cacheLookup s.results_cache s.current_search_term with
    | none => simp
    | some rs =>
      obtain ⟨count, results⟩ := rs
      cases results with
      | nil => exact Or.inr ⟨count, rfl⟩
      | cons r rest => simp [List.range_succ]

/- ### Claim C1 -/

/-- Claim C1 (counterexample): the claim states that any listing path whose
final non-empty segment is all digits — including the multi-segment path
`/foo/5` — decodes as an indexed child without changing CurrentQuery.  On
the code, `iterdir` only takes the index branch when the whole remainder
after the leading slash is digits: listing `/foo/5` instead decodes the
path as the new query `foo/5`, changes CurrentQuery away from `abc`, and
performs a backend call. -/
theorem claim_C1_counterexample :
    (iterdir beFail stFive fooSlash5).state.current_search_term = fooFive ∧
    stFive.current_search_term = abcS ∧
    fooFive ≠ abcS ∧
    (iterdir beFail stFive fooSlash5).backendCalls = 1 := by decide

/-- Claim C1 (amended): during a listing call, a path consisting of a
separator followed by a purely-digit remainder (`/5`, `/42`, ...) is decoded
as an indexed-child reference: the state (CurrentQuery and cache) is
unchanged, no backend call happens, and the listing is produced relative to
the unchanged CurrentQuery.  Multi-segment digit-trailing paths such as
`/foo/5` are instead decoded as a new query and do change CurrentQuery. -/
theorem claim_C1_theorem (be : Str → SearchOutcome) (st : FSState) (s : Str)
    (hs : s ≠ []) (hall : s.all Char.isDigit = true) :
    iterdir be st ('/' :: s) = ⟨st, listingOutput st, 0⟩ := by
  have h1 : containsChar '?' ('/' :: s) = false := by
    simp only [containsChar, Bool.or_eq_false_iff, decide_eq_false_iff_not]
    exact ⟨by decide, not_containsChar_of_all_digit (by decide) hall⟩
  have h2 : 1 ≤ countChar '/' ('/' :: s) := by
    simp [countChar]
  have h3 : startsWithChar '/' ('/' :: s) = true := by
    simp [startsWithChar]
  have h4 : pyIsdigit s = true := pyIsdigit_of s hs hall
  simp [iterdir, h1, h2, h3, h4]

/-- Claim C1 (witness): the amended theorem at the single-digit listing path
`/5` against the state with query `abc` cached. -/
theorem claim_C1_witness :
    ((['5'] : Str) ≠ [] ∧ (['5'] : Str).all Char.isDigit = true) ∧
    iterdir beFail stFive ['/', '5'] = ⟨stFive, listingOutput stFive, 0⟩ :=
  ⟨⟨by decide, by decide⟩, claim_C1_theorem beFail stFive ['5'] (by decide) (by decide)⟩

/- ### Claim C4 -/

/-- Claim C4 (counterexample): the claim states every listing yields at
least the placeholder entry.  Listing the query `abc` when the backend
succeeds with zero matches stores `(0, [])` and yields an empty listing —
no placeholder entry at all. -/
theorem claim_C4_counterexample :
    (iterdir beEmptyOk stEmpty ('/' :: abcS)).entries = [] ∧
    (iterdir beEmptyOk stEmpty ('/' :: abcS)).backendCalls = 1 := by decide

/-- Claim C4 (amended): a listing call never raises (the model is a total
function); it yields at least one entry — the placeholder when the decoded
current query is too short or uncached, including after a backend failure —
except when the decoded query is cached with an empty entries list, in
which case the listing is empty. -/
theorem claim_C4_theorem (be : Str → SearchOutcome) (st : FSState) (path : Str) :
    (iterdir be st path).entries ≠ [] ∨
    ∃ count,
      cacheLookup (iterdir be st path).state.results_cache
        (iterdir be st path).state.current_search_term =
        Option.some (count, []) := by
  have h := listingOutput_cases (iterdir be st path).state
  rw [show (iterdir be st path).entries
      = listingOutput (iterdir be st path).state from rfl]
  exact h

/- ### Claim C5 -/

/-- Claim C5: a listing whose decoded query has fewer than three characters
sets CurrentQuery, performs zero backend calls, stores nothing (the cache is
unchanged), and yields exactly one placeholder entry. -/
theorem claim_C5_theorem (be : Str → SearchOutcome) (st : FSState) (q : Str)
    (hlen : q.length < 3) :
    (update_search be st q).backendCalls = 0 ∧
    (update_search be st q).state.current_search_term = q ∧
    (update_search be st q).state.results_cache = st.results_cache ∧
    listingOutput (update_search be st q).state = [placeholderS] := by
  have h3 : ¬ 3 ≤ q.length := by omega
  refine ⟨?_, ?_, ?_, ?_⟩ <;> simp [update_search, h3, listingOutput, hlen]

/-- Claim C5 (witness): the two-character query `ab` on an empty cache. -/
theorem claim_C5_witness :
    (['a', 'b'] : Str).length < 3 ∧
    ((update_search beFail stEmpty ['a', 'b']).backendCalls = 0 ∧
     (update_search beFail stEmpty ['a', 'b']).state.current_search_term = ['a', 'b'] ∧
     (update_search beFail stEmpty ['a', 'b']).state.results_cache =
       stEmpty.results_cache ∧
     listingOutput (update_search beFail stEmpty ['a', 'b']).state = [placeholderS]) :=
  ⟨by decide, claim_C5_theorem beFail stEmpty ['a', 'b'] (by decide)⟩

/- ### Claim C7 -/

/-- Claim C7: `get_item_at_index` returns absent (and, being a total
function, never raises) whenever the current query is too short, is not
cached, or the index is out of the cached results' range. -/
theorem claim_C7_theorem (st : FSState) (i : Int) :
    (st.current_search_term.length < 3 → get_item_at_index st i = Option.none) ∧
    (cacheLookup st.results_cache st.current_search_term = Option.none →
      get_item_at_index st i = Option.none) ∧
    (∀ count results,
      cacheLookup st.results_cache st.current_search_term =
        Option.some (count, results) →
      ¬(0 ≤ i ∧ i < (results.length : Int)) →
      get_item_at_index st i = Option.none) := by
  refine ⟨fun h => by simp [get_item_at_index, h],
    fun h => ?_, fun count results h hb => ?_⟩
  · by_cases hlen : st.current_search_term.length < 3
    · simp [get_item_at_index, hlen]
    · simp [get_item_at_index, hlen, h]
  · by_cases hlen : st.current_search_term.length < 3
    · simp [get_item_at_index, hlen]
    · simp [get_item_at_index, hlen, h, hb]

/-- Claim C7 (witness): index 9999 against the state with exactly five
cached results returns absent. -/
theorem claim_C7_witness :
    cacheLookup stFive.results_cache stFive.current_search_term =
      Option.some (5, [exEntry 0, exEntry 1, exEntry 2, exEntry 3, exEntry 4]) ∧
    ¬((0 : Int) ≤ 9999 ∧ (9999 : Int) < (5 : Int)) ∧
    get_item_at_index stFive 9999 = Option.none :=
  ⟨by decide, by decide,
   (claim_C7_theorem stFive 9999).2.2 5
     [exEntry 0, exEntry 1, exEntry 2, exEntry 3, exEntry 4]
     (by decide) (by decide)⟩

/- ### Claim C8 -/

/-- Claim C8: the ModifiedTime projection formats the raw string
`2024-03-05T12:30:00Z` to `2024-03-05 12:30:00` (strip the zone suffix,
parse, reformat), and any source string whose parse fails is returned
unchanged. -/
theorem claim_C8_theorem :
    dateModifiedFormat exDateRaw = exDateFormatted ∧
    ∀ s, strptimeYmdTHMS (stripZoneSuffix s) = Option.none →
      dateModifiedFormat s = s := by
  refine ⟨by decide, fun s h => ?_⟩
  simp [dateModifiedFormat, h]

/-- Claim C8 (witness): the unparseable string `garbage` is returned
unchanged. -/
theorem claim_C8_witness :
    strptimeYmdTHMS (stripZoneSuffix garbageS) = Option.none ∧
    dateModifiedFormat garbageS = garbageS :=
  ⟨by decide, claim_C8_theorem.2 garbageS (by decide)⟩

/- ### Claim C10 -/

/-- Claim C10: a path whose final segment parses as a negative integer
never selects an entry from the end of the cached list: `resolve` returns
the synthetic non-resolving location, `is_dir` returns false, and
`get_item_at_index` returns absent — for every cache state. -/
theorem claim_C10_theorem (isdir : Str → Bool) (st : FSState) (path : Str)
    (i : Int) (hsl : containsChar '/' path = true)
    (hparse : pyInt (afterLast '/' path) = Option.some i) (hneg : i < 0) :
    resolve st path = schemeS ++ path ∧
    is_dir isdir st path = false ∧
    get_item_at_index st i = Option.none := by
  have hne : path ≠ placeholderS := by
    intro h
    rw [h] at hsl
    exact absurd hsl (by decide)
  have hnot : ¬(0 ≤ i) := by omega
  refine ⟨?_, ?_, ?_⟩
  · simp only [resolve, if_neg hne, hsl, if_true, hparse]
    split
    · simp [hnot]
    · rfl
  · simp only [is_dir, if_neg hne, hsl, if_true, hparse]
    split
    · simp [hnot]
    · rfl
  · simp only [get_item_at_index]
    split
    · rfl
    · split
      · simp [hnot]
      · rfl

/-- Claim C10 (witness): the path whose final segment is `-1` against the
state with five cached results, under an isdir oracle that answers true for
every real path. -/
theorem claim_C10_witness :
    containsChar '/' slashNeg1 = true ∧
    pyInt (afterLast '/' slashNeg1) = Option.some (-1) ∧
    resolve stFive slashNeg1 = schemeS ++ slashNeg1 ∧
    is_dir isdirAlways stFive slashNeg1 = false ∧
    get_item_at_index stFive (-1) = Option.none := by
  refine ⟨by decide, by decide, ?_, ?_, ?_⟩
  · exact (claim_C10_theorem isdirAlways stFive slashNeg1 (-1)
      (by decide) (by decide) (by decide)).1
  · exact (claim_C10_theorem isdirAlways stFive slashNeg1 (-1)
      (by decide) (by decide) (by decide)).2.1
  · exact (claim_C10_theorem isdirAlways stFive slashNeg1 (-1)
      (by decide) (by decide) (by decide)).2.2

/- ### Claim C2 -/

/-- Claim C2: for a query of length at least 3 with no cache entry, when the
backend produces a result, the first listing makes exactly one backend call
and stores the result (capped at 100 entries) under the query; a second
listing of the same query with no intervening eviction makes zero backend
calls, leaves the state unchanged, and serves the stored ResultSet. -/
theorem claim_C2_theorem (be : Str → SearchOutcome) (st : FSState) (q : Str)
    (count : Int) (results : List SearchResult) (hlen : 3 ≤ q.length)
    (hmiss : cacheLookup st.results_cache q = Option.none)
    (hok : be q = Except.ok (count, results)) :
    (update_search be st q).backendCalls = 1 ∧
    cacheLookup (update_search be st q).state.results_cache q =
      Option.some (count, results.take 100) ∧
    (update_search be (update_search be st q).state q).backendCalls = 0 ∧
    (update_search be (update_search be st q).state q).state =
      (update_search be st q).state ∧
    listingOutput (update_search be st q).state =
      (List.range (results.take 100).length).map (fun i => '/' :: natToStr i) := by
  have hst := update_search_stores be st q count results hlen hmiss hok
  rw [hst]
  have hlook : cacheLookup
      (cacheInsert st.results_cache q (count, results.take 100)) q =
      Option.some (count, results.take 100) := cacheLookup_insert _ _ _
  have hnlt : ¬ (q.length < 3) := by omega
  have hhit : (cacheLookup
      ({ st with
          current_search_term := q
          results_cache :=
            cacheInsert st.results_cache q (count, results.take 100) } :
        FSState).results_cache q).isSome = true := by
    simp [hlook]
  refine ⟨rfl, hlook, ?_, ?_, ?_⟩
  · rw [update_search_cached be _ q hlen hhit]
  · rw [update_search_cached be _ q hlen hhit]
  · simp [listingOutput, hnlt, hlook]

/-- Claim C2 (witness): the query `abc` against an empty cache with a
backend returning two results. -/
theorem claim_C2_witness :
    (3 ≤ abcS.length ∧ cacheLookup stEmpty.results_cache abcS = Option.none ∧
      beTwo abcS = Except.ok (2, [exEntry 0, exEntry 1])) ∧
    ((update_search beTwo stEmpty abcS).backendCalls = 1 ∧
     cacheLookup (update_search beTwo stEmpty abcS).state.results_cache abcS =
       Option.some (2, [exEntry 0, exEntry 1].take 100) ∧
     (update_search beTwo (update_search beTwo stEmpty abcS).state abcS).backendCalls
       = 0 ∧
     (update_search beTwo (update_search beTwo stEmpty abcS).state abcS).state =
       (update_search beTwo stEmpty abcS).state ∧
     listingOutput (update_search beTwo stEmpty abcS).state =
       (List.range ([exEntry 0, exEntry 1].take 100).length).map
         (fun i => '/' :: natToStr i)) :=
  ⟨⟨by decide, by decide, rfl⟩,
   claim_C2_theorem beTwo stEmpty abcS 2 [exEntry 0, exEntry 1]
     (by decide) (by decide) rfl⟩

/- ### Claim C3 -/

/-- Claim C3 (counterexample): the claim states the stored entries list
length equals min(backend-reported totalCount, 100).  The remote backend's
JSON body carries `count` and `results` independently: a response with
`count = 5` and an empty results list is cached as `(5, [])`, whose entries
length 0 differs from min(5, 100) = 5. -/
theorem claim_C3_counterexample :
    (update_search (search_everything apiModeS Option.none apiCountFive)
        stEmpty abcS).state.results_cache = [(abcS, (5, []))] ∧
    ¬(([] : List SearchResult).length = min 5 100) := by
  refine ⟨by decide, by decide⟩

/-- Claim C3 (amended): for every query cached by a listing, the stored
entries list length equals min(length of the backend-returned results list,
100); the backend-returned list can be shorter than the backend-reported
totalCount (the remote count field is independent of its results list, and
the native backend skips entries whose full path cannot be read). -/
theorem claim_C3_theorem (be : Str → SearchOutcome) (st : FSState) (q : Str)
    (count : Int) (results : List SearchResult) (hlen : 3 ≤ q.length)
    (hmiss : cacheLookup st.results_cache q = Option.none)
    (hok : be q = Except.ok (count, results)) :
    cacheLookup (update_search be st q).state.results_cache q =
      Option.some (count, results.take 100) ∧
    (results.take 100).length = min results.length 100 := by
  have hst := update_search_stores be st q count results hlen hmiss hok
  rw [hst]
  refine ⟨cacheLookup_insert _ _ _, ?_⟩
  simp [List.length_take, Nat.min_comm]

/-- Claim C3 (witness): the amended theorem at the two-result backend. -/
theorem claim_C3_witness :
    (3 ≤ abcS.length ∧ cacheLookup stEmpty.results_cache abcS = Option.none ∧
      beTwo abcS = Except.ok (2, [exEntry 0, exEntry 1])) ∧
    cacheLookup (update_search beTwo stEmpty abcS).state.results_cache abcS =
      Option.some (2, [exEntry 0, exEntry 1].take 100) ∧
    ([exEntry 0, exEntry 1].take 100).length = min [exEntry 0, exEntry 1].length 100 :=
  ⟨⟨by decide, by decide, rfl⟩,
   claim_C3_theorem beTwo stEmpty abcS 2 [exEntry 0, exEntry 1]
     (by decide) (by decide) rfl⟩

/- ### Claim C6 -/

/-- Claim C6: with the native backend configured as primary, any failure of
the native execution (including the library being not loaded) causes the
remote backend to be invoked with the same query and its outcome to be
returned; a remote-backend failure yields an error with no further
fallback. -/
theorem claim_C6_theorem (dllHandle : Option (Str → DllResponse))
    (api : Str → Except ApiFailure ApiResponse) (q : Str) (e : SearchError)
    (hfail : search_everything_dll dllHandle q = Except.error e) :
    search_everything dllModeS dllHandle api q = search_everything_api (api q) q ∧
    search_everything_dll Option.none q = Except.error SearchError.dllNotLoaded ∧
    (∀ f : ApiFailure, ∃ err : SearchError,
      search_everything_api (Except.error f) q = Except.error err) := by
  refine ⟨?_, rfl, ?_⟩
  · simp [search_everything, hfail]
  · intro f
    cases f with
    | httpError code =>
      by_cases h4 : code = 400
      · exact ⟨SearchError.apiBadRequest, by simp [search_everything_api, h4]⟩
      · by_cases h44 : code = 404
        · exact ⟨SearchError.apiNotFound, by simp [search_everything_api, h4, h44]⟩
        · exact ⟨SearchError.apiHttp code, by simp [search_everything_api, h4, h44]⟩
    | urlError => exact ⟨SearchError.apiConnection, rfl⟩
    | jsonError => exact ⟨SearchError.apiParse, rfl⟩
    | other => exact ⟨SearchError.apiOther, rfl⟩

/-- Claim C6 (witness): the native library not loaded, with a healthy
remote backend. -/
theorem claim_C6_witness :
    search_everything_dll Option.none abcS = Except.error SearchError.dllNotLoaded ∧
    search_everything dllModeS Option.none apiEmptyOk abcS =
      search_everything_api (apiEmptyOk abcS) abcS :=
  ⟨rfl, (claim_C6_theorem Option.none apiEmptyOk abcS SearchError.dllNotLoaded rfl).1⟩

/- ### Claim C9 -/

/-- Claim C9 (counterexample): the claim states that activating an indexed
child resolving to a file both opens the file directly and records
`{path, index}` into the selection state.  No handler does both: the
double-click handler opens the file directly (issuing the `open` command and
suppressing the default) but leaves the state — including
`_last_selected_file` — untouched, while the `open_file` command handler
never issues a direct `open` command for the file at all. -/
theorem claim_C9_counterexample :
    on_doubleclicked isdirNever stFive exUrl0 =
      (stFive, [HostAction.runCommand openS (as_url (exEntry 0).path)],
        Option.some true) ∧
    stFive.last_selected_file = Option.none ∧
    HostAction.runCommand openS (as_url (exEntry 0).path) ∉
      (on_command isdirNever stFive openFileS (Option.some exUrl0)).2.1 := by
  refine ⟨by decide, by decide, by decide⟩

/-- Claim C9 (amended): double-click activation of an indexed child whose
resolved location is a file instructs the host to open the file directly
and suppresses the default behavior, but records nothing into the selection
state; the `{path, index}` recording happens only in the `open_file`
command handler, which does not open the file directly — it records the
selection and instructs the host to navigate to the file's parent directory
(rewriting the command to `open_directory` on the parent, with a
cursor-placement callback). -/
theorem claim_C9_theorem (isdir : Str → Bool) (st : FSState) (base s : Str)
    (item : SearchResult) (hs : s ≠ []) (hall : s.all Char.isDigit = true)
    (hitem : get_item_at_index st ((digitsToNat s : Nat) : Int) =
      Option.some item)
    (hfile : isdir item.path = false) :
    on_doubleclicked isdir st (schemeS ++ (base ++ '/' :: s)) =
      (st, [HostAction.runCommand openS (as_url item.path)], Option.some true) ∧
    on_command isdir st openFileS (Option.some (schemeS ++ (base ++ '/' :: s))) =
      ({ st with
          last_selected_file := Option.some item.path
          last_selected_index := ((digitsToNat s : Nat) : Int) },
       [HostAction.showAlert, HostAction.showAlert,
        HostAction.setPath (as_url (dirname item.path)) true, HostAction.showAlert],
       CommandResult.rewrite openDirectoryS (as_url (dirname item.path))) := by
  have hns : containsChar '/' s = false :=
    not_containsChar_of_all_digit (by decide) hall
  have hsp := splitscheme_everything (base ++ '/' :: s)
  have hppl : base ++ '/' :: s ≠ placeholderS := append_sep_ne_placeholder base s
  have hspl : base ++ '/' :: s ≠ slashPlaceholderS :=
    append_digits_ne_slashPlaceholder base s hs hall
  have hlne : lastNonEmpty (splitChar '/' (base ++ '/' :: s)) = Option.some s :=
    lastNonEmpty_splitChar base s hs hns
  have hcont : containsChar '/' (base ++ '/' :: s) = true := by
    rw [containsChar_append]
    simp [containsChar]
  have hdig : pyIsdigit s = true := pyIsdigit_of s hs hall
  constructor
  · by_cases h0 : s = ['0']
    · subst h0
      have he : endsWith (base ++ '/' :: ['0']) ['/', '0'] = true :=
        (endsWith_append_sep_iff base ['0'] (by decide) (by decide) '0').mpr rfl
      have hlc : lastCharD (base ++ '/' :: ['0']) = '0' :=
        lastCharD_append_single base '/' '0'
      have hitem0 : get_item_at_index st 0 = Option.some item := by
        rw [show ((digitsToNat ['0'] : Nat) : Int) = (0 : Int) from by decide] at hitem
        exact hitem
      simp [on_doubleclicked, hsp, hppl, he, hlc, hitem0, hfile]
    · by_cases h1 : s = ['1']
      · subst h1
        have he : endsWith (base ++ '/' :: ['1']) ['/', '1'] = true :=
          (endsWith_append_sep_iff base ['1'] (by decide) (by decide) '1').mpr rfl
        have he0 : endsWith (base ++ '/' :: ['1']) ['/', '0'] = false := by
          rw [Bool.eq_false_iff]
          intro hcontra
          exact absurd ((endsWith_append_sep_iff base ['1'] (by decide)
            (by decide) '0').mp hcontra) (by decide)
        have hlc : lastCharD (base ++ '/' :: ['1']) = '1' :=
          lastCharD_append_single base '/' '1'
        have hitem1 : get_item_at_index st 1 = Option.some item := by
          rw [show ((digitsToNat ['1'] : Nat) : Int) = (1 : Int) from by decide] at hitem
          exact hitem
        simp [on_doubleclicked, hsp, hppl, he, he0, hlc, hitem1, hfile]
      · by_cases h2 : s = ['2']
        · subst h2
          have he : endsWith (base ++ '/' :: ['2']) ['/', '2'] = true :=
            (endsWith_append_sep_iff base ['2'] (by decide) (by decide) '2').mpr rfl
          have he0 : endsWith (base ++ '/' :: ['2']) ['/', '0'] = false := by
            rw [Bool.eq_false_iff]
            intro hcontra
            exact absurd ((endsWith_append_sep_iff base ['2'] (by decide)
              (by decide) '0').mp hcontra) (by decide)
          have he1 : endsWith (base ++ '/' :: ['2']) ['/', '1'] = false := by
            rw [Bool.eq_false_iff]
            intro hcontra
            exact absurd ((endsWith_append_sep_iff base ['2'] (by decide)
              (by decide) '1').mp hcontra) (by decide)
          have hlc : lastCharD (base ++ '/' :: ['2']) = '2' :=
            lastCharD_append_single base '/' '2'
          have hitem2 : get_item_at_index st 2 = Option.some item := by
            rw [show ((digitsToNat ['2'] : Nat) : Int) = (2 : Int) from by decide] at hitem
            exact hitem
          simp [on_doubleclicked, hsp, hppl, he, he0, he1, hlc, hitem2, hfile]
        · have he0 : endsWith (base ++ '/' :: s) ['/', '0'] = false := by
            rw [Bool.eq_false_iff]
            intro hcontra
            exact h0 ((endsWith_append_sep_iff base s hs hns '0').mp hcontra)
          have he1 : endsWith (base ++ '/' :: s) ['/', '1'] = false := by
            rw [Bool.eq_false_iff]
            intro hcontra
            exact h1 ((endsWith_append_sep_iff base s hs hns '1').mp hcontra)
          have he2 : endsWith (base ++ '/' :: s) ['/', '2'] = false := by
            rw [Bool.eq_false_iff]
            intro hcontra
            exact h2 ((endsWith_append_sep_iff base s hs hns '2').mp hcontra)
          simp [on_doubleclicked, hsp, hppl, he0, he1, he2, hcont, hlne, hdig,
            hitem, hfile]
  · simp [on_command, hsp, hppl, hspl, hcont, hlne, hdig, hitem, hfile]

/-- Claim C9 (witness): the amended theorem at the URL
`everything:///abc//4` against a file entry, showing the direct open with
no recording on double-click and the record-then-navigate-to-parent on the
`open_file` command. -/
theorem claim_C9_witness :
    ((['4'] : Str) ≠ [] ∧ (['4'] : Str).all Char.isDigit = true ∧
      get_item_at_index stFive ((digitsToNat ['4'] : Nat) : Int) =
        Option.some (exEntry 4) ∧ isdirNever (exEntry 4).path = false) ∧
    (on_doubleclicked isdirNever stFive
        (schemeS ++ (['/', 'a', 'b', 'c', '/'] ++ '/' :: ['4'])) =
      (stFive, [HostAction.runCommand openS (as_url (exEntry 4).path)],
        Option.some true) ∧
     on_command isdirNever stFive openFileS
        (Option.some (schemeS ++ (['/', 'a', 'b', 'c', '/'] ++ '/' :: ['4']))) =
      ({ stFive with
          last_selected_file := Option.some (exEntry 4).path
          last_selected_index := ((digitsToNat ['4'] : Nat) : Int) },
       [HostAction.showAlert, HostAction.showAlert,
        HostAction.setPath (as_url (dirname (exEntry 4).path)) true,
        HostAction.showAlert],
       CommandResult.rewrite openDirectoryS (as_url (dirname (exEntry 4).path)))) :=
  ⟨⟨by decide, by decide, by decide, rfl⟩,
   claim_C9_theorem isdirNever stFive ['/', 'a', 'b', 'c', '/'] ['4'] (exEntry 4)
     (by decide) (by decide) (by decide) rfl⟩
